import Mathlib

/-!
Verification of the asset-identity resolution and caching layer of the
rotki frontend: the `useAssetInfoRetrieval` store (association resolver,
asset-info resolver with collection overrides and EVM fallback synthesis)
and the `useEthNamesStore` Ethereum name store (ENS worklist, address
books, wholesale name-mapping rebuild).

The TypeScript sources are embedded shallowly: reactive `computed`
projections become pure functions over an explicit state record, the
asset cache and the backend are passed in as explicit state/oracle
arguments, and JavaScript truthiness on optional strings is made explicit
via `jsOr` / `jsTruthy`.
-/

/-! ## Identifier classifier -/

/-- Modelled from the spec: `isEvmIdentifier` from `@/utils/assets` is not
among the sources.  The spec describes it as a pure structural
string-pattern test for the EVM-token identifier shape, whose examples are
written `evm:1:0xABC...` (so: the `evm:` lead-in). -/
def isEvmIdentifier (id : String) : Bool :=
  id.toList.take 4 == "evm:".toList

/-- Splits a character list at every colon (structural helper for the
identifier classifier). -/
def splitOnColonAux : List Char → List Char → List (List Char)
  | [], acc => [acc.reverse]
  | c :: cs, acc =>
    if c = ':' then acc.reverse :: splitOnColonAux cs []
    else splitOnColonAux cs (c :: acc)

/-- Modelled from the spec: `getAddressFromEvmIdentifier` from
`@/utils/assets` is not among the sources.  The spec says it extracts the
contract address substring of an EVM identifier (`evm:<chain>:<address>`,
the third colon-separated field), and yields the empty string on
non-EVM-shaped input. -/
def getAddressFromEvmIdentifier (id : String) : String :=
  ((splitOnColonAux id.toList []).getD 2 []).asString

/-- Modelled from the spec: the custom-asset type constant from
`@/services/assets/consts` is not among the sources; only equality with it
matters. -/
def CUSTOM_ASSET : String := "custom asset"

/-! ## Data model of the asset-info resolver -/

/-- The `AssetInfo` record: raw cached metadata and the resolver's output share
this shape.  Optional string fields are `Option String`; the optional
boolean custom flag collapses to `Bool` (JS truthiness treats a missing
flag as `false`, and the resolver always overwrites the field on output). -/
structure AssetInfo where
  name : Option String := none
  symbol : Option String := none
  isCustomAsset : Bool := false
  customAssetType : Option String := none
  collectionId : Option String := none
  assetType : Option String := none
  deriving DecidableEq, Repr

/-- Collection-level display metadata from the fetched-collections map. -/
structure AssetCollection where
  name : Option String := none
  symbol : Option String := none
  deriving DecidableEq, Repr

/-- The Asset Cache contract consumed by the resolver: a pending-request
predicate (`pending`), a retrieval accessor (`cache`), and the
fetched-collections mapping, all read by `assetInfo`. -/
structure AssetCacheState where
  pending : List String := []
  cache : List (String × AssetInfo) := []
  fetchedAssetCollections : List (String × AssetCollection) := []
  deriving DecidableEq, Repr

/-- JavaScript `a || b` on an optional string: the right operand is used
when the left is absent or empty. -/
def jsOr : Option String → String → String
  | some s, b => if s = "" then b else s
  | none, b => b

/-- JavaScript truthiness of an optional string. -/
def jsTruthy : Option String → Bool
  | some s => s ≠ ""
  | none => false

def isPending (st : AssetCacheState) (id : String) : Bool :=
  st.pending.contains id

def retrieve (st : AssetCacheState) (key : String) : Option AssetInfo :=
  st.cache.lookup key

/-! ## Association resolver -/

/-- Embedding of `assetAssociationMap`: built fresh from the `treatEth2AsEth` setting;
holds the single rule ETH2 → ETH when the setting is on, else nothing. -/
def assetAssociationMap (treatEth2AsEth : Bool) : List (String × String) :=
  if treatEth2AsEth then [("ETH2", "ETH")] else []

/-- Embedding of `getAssociatedAssetIdentifier`: the mapped identifier when present in
the association map, the identifier itself otherwise. -/
def getAssociatedAssetIdentifier (treatEth2AsEth : Bool) (identifier : String) : String :=
  ((assetAssociationMap treatEth2AsEth).lookup identifier).getD identifier

/-- Embedding of `getAssetNameFallback`: synthesized display string for EVM-shaped
identifiers, empty string otherwise. -/
def getAssetNameFallback (id : String) : String :=
  if isEvmIdentifier id then "EVM Token: " ++ getAddressFromEvmIdentifier id
  else ""

/-! ## Asset info resolver -/

/-- Embedding of `assetInfo` of `useAssetInfoRetrieval`, as a pure function of the asset
cache state, the `treatEth2AsEth` setting and the three arguments; the
reactive `ComputedRef` wrapper and `MaybeRef` unwrapping are dropped.
`none` for `identifier` plays TypeScript `undefined`. -/
def assetInfo (st : AssetCacheState) (treatEth2AsEth : Bool)
    (identifier : Option String) (enableAssociation : Bool)
    (isCollectionParent : Bool) : Option AssetInfo :=
  match identifier with
  | none => none
  | some id =>
    if id = "" then none
    else if isPending st id then none
    else
      let key := if enableAssociation then getAssociatedAssetIdentifier treatEth2AsEth id else id
      let data := retrieve st key
      let custom : Bool :=
        (data.map (·.isCustomAsset)).getD false
          || data.bind (·.assetType) == some CUSTOM_ASSET
      if custom then
        some { name := data.bind (·.name)
               symbol := data.bind (·.name)
               isCustomAsset := true
               customAssetType := data.bind (·.customAssetType)
               collectionId := data.bind (·.collectionId)
               assetType := data.bind (·.assetType) }
      else
        let cid := data.bind (·.collectionId)
        let collectionData : Option AssetCollection :=
          if isCollectionParent && jsTruthy cid then
            st.fetchedAssetCollections.lookup (cid.getD "")
          else none
        let name :=
          jsOr (collectionData.bind (·.name))
            (jsOr (data.bind (·.name)) (getAssetNameFallback id))
        let symbol :=
          jsOr (collectionData.bind (·.symbol))
            (jsOr (data.bind (·.symbol)) (getAssetNameFallback id))
        some { name := some name
               symbol := some symbol
               isCustomAsset := false
               customAssetType := data.bind (·.customAssetType)
               collectionId := cid
               assetType := data.bind (·.assetType) }

/-! ## Ethereum name store: data model -/

/-- Modelled from the spec: `uniqueStrings` from `@/utils/data` is not
among the sources; the spec calls for deduplication of a string list, kept
in order of first occurrence. -/
def uniqueStrings : List String → List String
  | [] => []
  | x :: xs => x :: (uniqueStrings xs).filter (fun y => y != x)

def isHexDigitChar (c : Char) : Bool :=
  c.isDigit || "abcdefABCDEF".toList.contains c

/-- Modelled from the spec: `isValidEthAddress` from `@/utils/text` is not
among the sources; the spec says the ENS worklist is filtered to
structurally valid address strings, i.e. `0x` followed by 40 hexadecimal
digits. -/
def isValidEthAddress (address : String) : Bool :=
  address.toList.take 2 == ['0', 'x'] && address.toList.length == 42
    && (address.toList.drop 2).all isHexDigitChar

/-- One address-book entry, partitioned by location. -/
structure EthNamesEntry where
  address : String
  name : String
  deriving DecidableEq, Repr

inductive EthAddressBookLocation where
  | global
  | priv
  deriving DecidableEq, Repr

/-- The mutable state owned by `useEthNamesStore`: the ENS worklist, the
derived address → name mapping, and the two address-book mirrors. -/
structure EthNamesState where
  ensAddresses : List String := []
  ethNames : List (String × String) := []
  ethAddressBookGlobal : List EthNamesEntry := []
  ethAddressBookPrivate : List EthNamesEntry := []
  deriving DecidableEq, Repr

def initialEthNamesState : EthNamesState := {}

/-- Observable effects of a store operation, in order of occurrence:
backend requests (the untracked `getEnsNames` or the tracked
`getEnsNamesTask`+`awaitTask`, `getEthNames`, `getEthAddressBook`, the
add/update/delete mutations) and user-visible error notices. -/
inductive StoreEvent where
  | ensResolutionRequest (tracked : Bool) (addresses : List String)
  | ethNamesRequest (addresses : List String)
  | addressBookRequest (location : EthAddressBookLocation)
      (addresses : Option (List String))
  | addressBookMutationRequest (location : EthAddressBookLocation)
  | errorNotified
  deriving DecidableEq, Repr

/-! ## Ethereum name store: operations

Each `async` store operation becomes a function `state → oracles → state ×
List StoreEvent`; the backend's answers (`Except` for throwing calls, a
`Bool` for the mutation calls' success flag) are oracle arguments. -/

/-- Embedding of `updateEnsAddresses`: append, deduplicate, filter to valid addresses;
report whether the worklist changed and set it only then. -/
def updateEnsAddresses (st : EthNamesState) (newAddresses : List String) :
    Bool × EthNamesState :=
  let newEnsAddresses :=
    (uniqueStrings (st.ensAddresses ++ newAddresses)).filter isValidEthAddress
  let changed : Bool := decide (newEnsAddresses ≠ st.ensAddresses)
  (changed, if changed then { st with ensAddresses := newEnsAddresses } else st)

/-- Embedding of `fetchEthNames`: request resolution of the deduplicated union of both
address books and the ENS worklist; on success replace the whole mapping,
on failure keep the old mapping and notify. -/
def fetchEthNames (st : EthNamesState)
    (response : Except String (List (String × String))) :
    EthNamesState × List StoreEvent :=
  let addresses := uniqueStrings
    (st.ethAddressBookGlobal.map (·.address)
      ++ st.ethAddressBookPrivate.map (·.address)
      ++ st.ensAddresses)
  match response with
  | .ok result => ({ st with ethNames := result }, [.ethNamesRequest addresses])
  | .error _ => (st, [.ethNamesRequest addresses, .errorNotified])

/-- Embedding of `fetchEnsNames`: no-op on an empty list; merge into the worklist; skip
the backend when neither `forceUpdate` nor the worklist changed; otherwise
resolve the whole (non-empty) worklist — tracked task when `forceUpdate`,
untracked call otherwise — then refresh via `fetchEthNames`. -/
def fetchEnsNames (st : EthNamesState) (addresses : List String)
    (forceUpdate : Bool)
    (ethNamesResponse : Except String (List (String × String))) :
    EthNamesState × List StoreEvent :=
  if addresses.length = 0 then (st, [])
  else
    let r := updateEnsAddresses st addresses
    let changed := r.1
    let st1 := r.2
    if !forceUpdate && !changed then (st1, [])
    else
      let latestEnsAddresses := st1.ensAddresses
      if latestEnsAddresses.length > 0 then
        let r2 := fetchEthNames st1 ethNamesResponse
        (r2.1, .ensResolutionRequest forceUpdate latestEnsAddresses :: r2.2)
      else (st1, [])

/-- Embedding of `updateEthAddressBookState`: replace one location's mirror, then
refresh the name mapping. -/
def updateEthAddressBookState (st : EthNamesState)
    (location : EthAddressBookLocation) (result : List EthNamesEntry)
    (ethNamesResponse : Except String (List (String × String))) :
    EthNamesState × List StoreEvent :=
  let st1 := match location with
    | .global => { st with ethAddressBookGlobal := result }
    | .priv => { st with ethAddressBookPrivate := result }
  fetchEthNames st1 ethNamesResponse

/-- Embedding of `fetchEthAddressBook`: fetch one location's entries; on success update
that mirror and refresh names, on failure log/notify and keep prior state. -/
def fetchEthAddressBook (st : EthNamesState)
    (location : EthAddressBookLocation) (addresses : Option (List String))
    (bookResponse : Except String (List EthNamesEntry))
    (ethNamesResponse : Except String (List (String × String))) :
    EthNamesState × List StoreEvent :=
  match bookResponse with
  | .ok result =>
    let r := updateEthAddressBookState st location result ethNamesResponse
    (r.1, .addressBookRequest location addresses :: r.2)
  | .error _ => (st, [.addressBookRequest location addresses, .errorNotified])

/-- Embedding of `addEthAddressBook`: backend mutation first; only on reported success
re-fetch the location's entries (which re-runs `fetchEthNames`). -/
def addEthAddressBook (st : EthNamesState)
    (location : EthAddressBookLocation) (entries : List EthNamesEntry)
    (mutationResult : Bool)
    (bookResponse : Except String (List EthNamesEntry))
    (ethNamesResponse : Except String (List (String × String))) :
    EthNamesState × List StoreEvent :=
  if mutationResult then
    let r := fetchEthAddressBook st location none bookResponse ethNamesResponse
    (r.1, .addressBookMutationRequest location :: r.2)
  else (st, [.addressBookMutationRequest location])

/-- Embedding of `updateEthAddressBook`: same success gate as `addEthAddressBook`. -/
def updateEthAddressBook (st : EthNamesState)
    (location : EthAddressBookLocation) (entries : List EthNamesEntry)
    (mutationResult : Bool)
    (bookResponse : Except String (List EthNamesEntry))
    (ethNamesResponse : Except String (List (String × String))) :
    EthNamesState × List StoreEvent :=
  if mutationResult then
    let r := fetchEthAddressBook st location none bookResponse ethNamesResponse
    (r.1, .addressBookMutationRequest location :: r.2)
  else (st, [.addressBookMutationRequest location])

/-- Embedding of `deleteEthAddressBook`: same success gate as `addEthAddressBook`. -/
def deleteEthAddressBook (st : EthNamesState)
    (location : EthAddressBookLocation) (addresses : List String)
    (mutationResult : Bool)
    (bookResponse : Except String (List EthNamesEntry))
    (ethNamesResponse : Except String (List (String × String))) :
    EthNamesState × List StoreEvent :=
  if mutationResult then
    let r := fetchEthAddressBook st location none bookResponse ethNamesResponse
    (r.1, .addressBookMutationRequest location :: r.2)
  else (st, [.addressBookMutationRequest location])

/-- One store operation together with its backend oracle answers. -/
inductive StoreOp where
  | opFetchEnsNames (addresses : List String) (forceUpdate : Bool)
      (namesResp : Except String (List (String × String)))
  | opFetchEthNames (namesResp : Except String (List (String × String)))
  | opFetchEthAddressBook (location : EthAddressBookLocation)
      (addresses : Option (List String))
      (bookResp : Except String (List EthNamesEntry))
      (namesResp : Except String (List (String × String)))
  | opAddEthAddressBook (location : EthAddressBookLocation)
      (entries : List EthNamesEntry) (ok : Bool)
      (bookResp : Except String (List EthNamesEntry))
      (namesResp : Except String (List (String × String)))
  | opUpdateEthAddressBook (location : EthAddressBookLocation)
      (entries : List EthNamesEntry) (ok : Bool)
      (bookResp : Except String (List EthNamesEntry))
      (namesResp : Except String (List (String × String)))
  | opDeleteEthAddressBook (location : EthAddressBookLocation)
      (addresses : List String) (ok : Bool)
      (bookResp : Except String (List EthNamesEntry))
      (namesResp : Except String (List (String × String)))

def stepStore (st : EthNamesState) : StoreOp → EthNamesState × List StoreEvent
  | .opFetchEnsNames addresses forceUpdate namesResp =>
    fetchEnsNames st addresses forceUpdate namesResp
  | .opFetchEthNames namesResp => fetchEthNames st namesResp
  | .opFetchEthAddressBook location addresses bookResp namesResp =>
    fetchEthAddressBook st location addresses bookResp namesResp
  | .opAddEthAddressBook location entries ok bookResp namesResp =>
    addEthAddressBook st location entries ok bookResp namesResp
  | .opUpdateEthAddressBook location entries ok bookResp namesResp =>
    updateEthAddressBook st location entries ok bookResp namesResp
  | .opDeleteEthAddressBook location addresses ok bookResp namesResp =>
    deleteEthAddressBook st location addresses ok bookResp namesResp

def runStore (st : EthNamesState) : List StoreOp → EthNamesState
  | [] => st
  | op :: ops => runStore (stepStore st op).1 ops

/-- The implicit worklist invariant: only structurally valid addresses, no
duplicates. -/
def ensInvariant (st : EthNamesState) : Prop :=
  st.ensAddresses.Nodup ∧ ∀ a ∈ st.ensAddresses, isValidEthAddress a = true

/-- Number of ENS backend resolution calls among a list of events. -/
def ensResolutionCount (events : List StoreEvent) : Nat :=
  (events.filter fun e =>
    match e with
    | .ensResolutionRequest _ _ => true
    | _ => false).length

/-! ## Helper lemmas -/

theorem mem_uniqueStrings {a : String} {xs : List String} :
    a ∈ uniqueStrings xs ↔ a ∈ xs := by
  induction xs with
  | nil => simp [uniqueStrings]
  | cons x xs ih =>
    simp only [uniqueStrings, List.mem_cons, List.mem_filter, bne_iff_ne, ne_eq, ih]
    by_cases hax : a = x
    · simp [hax]
    · simp [hax]

theorem nodup_uniqueStrings (xs : List String) : (uniqueStrings xs).Nodup := by
  induction xs with
  | nil => simp [uniqueStrings]
  | cons x xs ih =>
    simp only [uniqueStrings, List.nodup_cons]
    constructor
    · intro hmem
      have := (List.mem_filter.mp hmem).2
      simp at this
    · exact ih.filter _

theorem uniqueStrings_eq_self {xs : List String} (h : xs.Nodup) :
    uniqueStrings xs = xs := by
  induction xs with
  | nil => rfl
  | cons x xs ih =>
    rcases List.nodup_cons.mp h with ⟨hx, hxs⟩
    simp only [uniqueStrings, ih hxs]
    congr 1
    apply List.filter_eq_self.mpr
    intro y hy
    simp only [bne_iff_ne, ne_eq]
    intro hyx
    exact hx (hyx ▸ hy)

theorem uniqueStrings_append_single (xs : List String) (a : String) :
    uniqueStrings (xs ++ [a]) =
      uniqueStrings xs ++ (if a ∈ xs then [] else [a]) := by
  induction xs with
  | nil => simp [uniqueStrings]
  | cons x xs ih =>
    rw [List.cons_append]
    show x :: (uniqueStrings (xs ++ [a])).filter (fun y => y != x) =
      (x :: (uniqueStrings xs).filter (fun y => y != x))
        ++ (if a ∈ x :: xs then [] else [a])
    rw [ih, List.filter_append]
    by_cases hax : a = x
    · subst hax
      by_cases hmem : a ∈ xs <;> simp [hmem]
    · by_cases hmem : a ∈ xs <;> simp [hmem, hax]

theorem assetInfo_isSome_of_not_pending (st : AssetCacheState)
    (treat assoc collp : Bool) (id : String) (hid : id ≠ "")
    (hp : isPending st id = false) :
    (assetInfo st treat (some id) assoc collp).isSome = true := by
  simp only [assetInfo]
  rw [if_neg hid, if_neg (by simp [hp])]
  repeat' split
  all_goals simp

theorem assetInfo_congr_of_not_pending (st st' : AssetCacheState)
    (treat assoc collp : Bool) (id : String) (hid : id ≠ "")
    (hp : isPending st id = false) (hp' : isPending st' id = false)
    (hc : st.cache = st'.cache)
    (hf : st.fetchedAssetCollections = st'.fetchedAssetCollections) :
    assetInfo st treat (some id) assoc collp =
      assetInfo st' treat (some id) assoc collp := by
  simp [assetInfo, retrieve, hc, hf, hp, hp', hid]

/-! ## Claim theorems: asset info resolver -/

/-- C1: `assetInfo` returns `null` exactly in the two not-resolvable
states: undefined/empty identifier, or an identifier currently pending in
the asset cache; in every other case it returns some record (and, being a
total function, it never throws). -/
theorem assetInfo_none_iff (st : AssetCacheState) (treat assoc collp : Bool)
    (identifier : Option String) :
    assetInfo st treat identifier assoc collp = none ↔
      identifier = none ∨ identifier = some "" ∨
        ∃ id, identifier = some id ∧ isPending st id = true := by
  cases identifier with
  | none => simp [assetInfo]
  | some id =>
    by_cases hid : id = ""
    · subst hid; simp [assetInfo]
    · by_cases hp : isPending st id = true
      · simp [assetInfo, hid, hp]
      · have hs := assetInfo_isSome_of_not_pending st treat assoc collp id hid
          (by simpa using hp)
        constructor
        · intro h
          rw [h] at hs
          simp at hs
        · rintro (h | h | ⟨id', hid', hp'⟩)
          · exact absurd h (by simp)
          · exact absurd (by injection h) hid
          · injection hid' with hid'
            exact absurd (hid' ▸ hp') hp

/-- C3: for raw metadata flagged custom (explicit flag or assetType equal
to the custom-asset constant), the resolved record has symbol exactly
equal to the metadata's name, and isCustomAsset true. -/
theorem assetInfo_custom_symbol_eq_name (st : AssetCacheState)
    (treat assoc collp : Bool) (id : String) (d : AssetInfo)
    (hid : id ≠ "") (hp : isPending st id = false)
    (hd : retrieve st
      (if assoc then getAssociatedAssetIdentifier treat id else id) = some d)
    (hcustom : d.isCustomAsset = true ∨ d.assetType = some CUSTOM_ASSET) :
    (assetInfo st treat (some id) assoc collp).map (·.symbol) = some d.name ∧
    (assetInfo st treat (some id) assoc collp).map (·.isCustomAsset) =
      some true := by
  have hres : assetInfo st treat (some id) assoc collp =
      some ⟨d.name, d.name, true, d.customAssetType, d.collectionId,
        d.assetType⟩ := by
    simp only [assetInfo]
    rw [if_neg hid, if_neg (by simp [hp])]
    simp only [hd]
    rcases hcustom with h | h <;> simp [h]
  simp [hres]

/-- C5: the association resolver returns the mapped identifier when the
identifier is a key of the association map and the identifier unchanged
otherwise; the map is exactly the single entry ETH2 → ETH when
`treatEth2AsEth` is on and empty when off; association is single-hop
(the resolver is idempotent, so no chains or cycles exist). -/
theorem getAssociatedAssetIdentifier_spec :
    assetAssociationMap true = [("ETH2", "ETH")] ∧
    assetAssociationMap false = [] ∧
    (∀ treat id v, (assetAssociationMap treat).lookup id = some v →
      getAssociatedAssetIdentifier treat id = v) ∧
    (∀ treat id, (assetAssociationMap treat).lookup id = none →
      getAssociatedAssetIdentifier treat id = id) ∧
    (∀ treat id, getAssociatedAssetIdentifier treat
        (getAssociatedAssetIdentifier treat id) =
      getAssociatedAssetIdentifier treat id) := by
  refine ⟨rfl, rfl, ?_, ?_, ?_⟩
  · intro treat id v h
    simp [getAssociatedAssetIdentifier, h]
  · intro treat id h
    simp [getAssociatedAssetIdentifier, h]
  · intro treat id
    cases treat with
    | false => simp [getAssociatedAssetIdentifier, assetAssociationMap]
    | true =>
      by_cases h : id = "ETH2"
      · subst h
        rfl
      · have hbe : (id == "ETH2") = false := by simp [h]
        have hlk : (assetAssociationMap true).lookup id = none := by
          simp only [assetAssociationMap, if_pos, List.lookup, hbe]
        simp [getAssociatedAssetIdentifier, hlk]

/-- Witness for C5 at the concrete single rule: ETH2 resolves to ETH when
the setting is on, and ETH is a fixed point. -/
theorem getAssociatedAssetIdentifier_spec_witness :
    getAssociatedAssetIdentifier true "ETH2" = "ETH" ∧
    getAssociatedAssetIdentifier true "ETH" = "ETH" :=
  ⟨getAssociatedAssetIdentifier_spec.2.2.1 true "ETH2" "ETH" (by decide),
   getAssociatedAssetIdentifier_spec.2.2.2.1 true "ETH" (by decide)⟩

/-- C10: the pending check is evaluated on the raw input identifier only,
before association: putting the canonical key into the pending set leaves
the result unchanged, and the result stays non-null (built from the cache
read at the canonical key). -/
theorem assetInfo_pending_checked_on_raw_id (st : AssetCacheState)
    (treat collp : Bool) (id : String) (hid : id ≠ "")
    (hp : isPending st id = false)
    (hkey : getAssociatedAssetIdentifier treat id ≠ id) :
    assetInfo
        { st with pending := getAssociatedAssetIdentifier treat id :: st.pending }
        treat (some id) true collp =
      assetInfo st treat (some id) true collp ∧
    (assetInfo st treat (some id) true collp).isSome = true := by
  refine ⟨?_, assetInfo_isSome_of_not_pending st treat true collp id hid hp⟩
  apply assetInfo_congr_of_not_pending
  · exact hid
  · have hne : id ≠ getAssociatedAssetIdentifier treat id := fun heq => hkey heq.symm
    have hmem : id ∉ st.pending := by simpa [isPending] using hp
    simp [isPending, hne, hmem]
  · exact hp
  · rfl
  · rfl

/-- Witness for C3: a concrete custom asset resolves with symbol equal to
its name and the custom flag set. -/
theorem assetInfo_custom_symbol_eq_name_witness :
    (assetInfo
        { cache := [("CUSTOM-1",
            { name := some "My Collectible", isCustomAsset := true })] }
        false (some "CUSTOM-1") false true).map (·.symbol) =
      some (some "My Collectible") ∧
    (assetInfo
        { cache := [("CUSTOM-1",
            { name := some "My Collectible", isCustomAsset := true })] }
        false (some "CUSTOM-1") false true).map (·.isCustomAsset) =
      some true := by
  have h := assetInfo_custom_symbol_eq_name
    { cache := [("CUSTOM-1",
        { name := some "My Collectible", isCustomAsset := true })] }
    false false true "CUSTOM-1"
    { name := some "My Collectible", isCustomAsset := true }
    (by decide) (by decide) (by decide) (Or.inl rfl)
  simpa using h

/-- Witness for C10: with ETH2 → ETH association on and an in-flight fetch
for the canonical key ETH, `assetInfo` of ETH2 is unaffected and non-null. -/
theorem assetInfo_pending_checked_on_raw_id_witness :
    assetInfo
        { pending := ["ETH"],
          cache := [("ETH", { name := some "Ethereum", symbol := some "ETH" })] }
        true (some "ETH2") true true =
      assetInfo
        { cache := [("ETH", { name := some "Ethereum", symbol := some "ETH" })] }
        true (some "ETH2") true true ∧
    (assetInfo
        { cache := [("ETH", { name := some "Ethereum", symbol := some "ETH" })] }
        true (some "ETH2") true true).isSome = true := by
  have h := assetInfo_pending_checked_on_raw_id
    { cache := [("ETH", { name := some "Ethereum", symbol := some "ETH" })] }
    true true "ETH2" (by decide) (by decide) (by decide)
  simpa [getAssociatedAssetIdentifier, assetAssociationMap, List.lookup] using h

/-- C2: for a non-custom cached record that declares a collection with a
fetched override, isCollectionParent = true makes the non-empty collection
name/symbol take precedence over the item's own, while
isCollectionParent = false uses the item's own metadata and never consults
the fetched-collections mapping. -/
theorem assetInfo_collection_override (st : AssetCacheState)
    (treat assoc : Bool) (id : String) (d : AssetInfo) (cid : String)
    (c : AssetCollection) (cn cs dn ds : String)
    (hid : id ≠ "") (hp : isPending st id = false)
    (hd : retrieve st
      (if assoc then getAssociatedAssetIdentifier treat id else id) = some d)
    (hnc1 : d.isCustomAsset = false) (hnc2 : d.assetType ≠ some CUSTOM_ASSET)
    (hcid : d.collectionId = some cid) (hcid0 : cid ≠ "")
    (hc : st.fetchedAssetCollections.lookup cid = some c)
    (hcn : c.name = some cn) (hcn0 : cn ≠ "")
    (hcs : c.symbol = some cs) (hcs0 : cs ≠ "")
    (hdn : d.name = some dn) (hdn0 : dn ≠ "")
    (hds : d.symbol = some ds) (hds0 : ds ≠ "") :
    ((assetInfo st treat (some id) assoc true).map (·.name) =
        some (some cn) ∧
      (assetInfo st treat (some id) assoc true).map (·.symbol) =
        some (some cs)) ∧
    ((assetInfo st treat (some id) assoc false).map (·.name) =
        some (some dn) ∧
      (assetInfo st treat (some id) assoc false).map (·.symbol) =
        some (some ds)) ∧
    (∀ colls, assetInfo { st with fetchedAssetCollections := colls }
        treat (some id) assoc false =
      assetInfo st treat (some id) assoc false) := by
  refine ⟨?_, ?_, ?_⟩
  · constructor <;>
      simp [assetInfo, hid, hp, hd, hnc1, hnc2, hcid, hcid0, hc, hcn, hcn0,
        hcs, hcs0, jsOr, jsTruthy]
  · constructor <;>
      simp [assetInfo, hid, hp, hd, hnc1, hnc2, hcid, hdn, hdn0, hds, hds0,
        jsOr]
  · intro colls
    have hp' : id ∉ st.pending := by simpa [isPending] using hp
    simp [assetInfo, isPending, hid, hp', retrieve]

/-- Witness for C2: concrete item metadata `Token A` in collection `X`
with fetched override `Collection A`: the override wins exactly when
isCollectionParent is true. -/
theorem assetInfo_collection_override_witness :
    ((assetInfo
        { cache := [("TOKEN-A",
            { name := some "Token A", symbol := some "TKA",
              collectionId := some "X" })],
          fetchedAssetCollections := [("X",
            { name := some "Collection A", symbol := some "COLA" })] }
        false (some "TOKEN-A") false true).map (·.name) =
      some (some "Collection A")) ∧
    ((assetInfo
        { cache := [("TOKEN-A",
            { name := some "Token A", symbol := some "TKA",
              collectionId := some "X" })],
          fetchedAssetCollections := [("X",
            { name := some "Collection A", symbol := some "COLA" })] }
        false (some "TOKEN-A") false false).map (·.name) =
      some (some "Token A")) ∧
    assetInfo
        { cache := [("TOKEN-A",
            { name := some "Token A", symbol := some "TKA",
              collectionId := some "X" })],
          fetchedAssetCollections := [] }
        false (some "TOKEN-A") false false =
      assetInfo
        { cache := [("TOKEN-A",
            { name := some "Token A", symbol := some "TKA",
              collectionId := some "X" })],
          fetchedAssetCollections := [("X",
            { name := some "Collection A", symbol := some "COLA" })] }
        false (some "TOKEN-A") false false := by
  have h := assetInfo_collection_override
    { cache := [("TOKEN-A",
        { name := some "Token A", symbol := some "TKA",
          collectionId := some "X" })],
      fetchedAssetCollections := [("X",
        { name := some "Collection A", symbol := some "COLA" })] }
    false false "TOKEN-A"
    { name := some "Token A", symbol := some "TKA", collectionId := some "X" }
    "X" { name := some "Collection A", symbol := some "COLA" }
    "Collection A" "COLA" "Token A" "TKA"
    (by decide) (by decide) (by decide) (by decide) (by decide)
    (by decide) (by decide) (by decide) (by decide) (by decide)
    (by decide) (by decide) (by decide) (by decide) (by decide)
    (by decide)
  exact ⟨h.1.1, h.2.1.1, h.2.2 []⟩

/-- C4: the resolved name and symbol follow the three-level fallback chain
collection-override / raw metadata value / synthesized fallback, where the
synthesized fallback is "EVM Token: <address>" for an EVM-shaped input
identifier and "" otherwise; in particular an EVM identifier with no
cached metadata resolves with both name and symbol equal to
"EVM Token: <address>". -/
theorem assetInfo_fallback_chain (st : AssetCacheState)
    (treat assoc collp : Bool) (id : String)
    (hid : id ≠ "") (hp : isPending st id = false) :
    (getAssetNameFallback id =
      if isEvmIdentifier id then
        "EVM Token: " ++ getAddressFromEvmIdentifier id
      else "") ∧
    (retrieve st
        (if assoc then getAssociatedAssetIdentifier treat id else id) = none →
      (assetInfo st treat (some id) assoc collp).map (·.name) =
        some (some (getAssetNameFallback id)) ∧
      (assetInfo st treat (some id) assoc collp).map (·.symbol) =
        some (some (getAssetNameFallback id))) ∧
    (∀ d, retrieve st
        (if assoc then getAssociatedAssetIdentifier treat id else id) = some d →
      d.isCustomAsset = false → d.assetType ≠ some CUSTOM_ASSET →
      ∀ collectionData : Option AssetCollection,
        collectionData =
          (if collp && jsTruthy d.collectionId then
            st.fetchedAssetCollections.lookup (d.collectionId.getD "")
          else none) →
        (assetInfo st treat (some id) assoc collp).map (·.name) =
          some (some (jsOr (collectionData.bind (·.name))
            (jsOr d.name (getAssetNameFallback id)))) ∧
        (assetInfo st treat (some id) assoc collp).map (·.symbol) =
          some (some (jsOr (collectionData.bind (·.symbol))
            (jsOr d.symbol (getAssetNameFallback id))))) := by
  refine ⟨rfl, ?_, ?_⟩
  · intro hnone
    constructor <;> simp [assetInfo, hid, hp, hnone, jsOr, jsTruthy]
  · intro d hd hnc1 hnc2 collectionData hcd
    subst hcd
    constructor <;> simp [assetInfo, hid, hp, hd, hnc1, hnc2]

/-- Witness for C4: the EVM identifier evm:1:0xABC with an empty cache
resolves with name and symbol both "EVM Token: 0xABC". -/
theorem assetInfo_fallback_chain_witness :
    (assetInfo {} false (some "evm:1:0xABC") false true).map (·.name) =
      some (some "EVM Token: 0xABC") ∧
    (assetInfo {} false (some "evm:1:0xABC") false true).map (·.symbol) =
      some (some "EVM Token: 0xABC") := by
  have h := (assetInfo_fallback_chain {} false false true "evm:1:0xABC"
    (by decide) (by decide)).2.1 (by decide)
  have e : getAssetNameFallback "evm:1:0xABC" = "EVM Token: 0xABC" := by decide
  rw [e] at h
  exact h


/-! ## Claim theorems: Ethereum name store -/

theorem fetchEthNames_ensAddresses (st : EthNamesState)
    (r : Except String (List (String × String))) :
    (fetchEthNames st r).1.ensAddresses = st.ensAddresses := by
  cases r <;> simp [fetchEthNames]

theorem ensResolutionCount_fetchEthNames (st : EthNamesState)
    (r : Except String (List (String × String))) :
    ensResolutionCount (fetchEthNames st r).2 = 0 := by
  cases r <;> simp [fetchEthNames, ensResolutionCount]

theorem updateEnsAddresses_eq (st : EthNamesState) (as : List String) :
    (updateEnsAddresses st as).2 =
      { st with ensAddresses :=
          (uniqueStrings (st.ensAddresses ++ as)).filter isValidEthAddress } := by
  unfold updateEnsAddresses
  by_cases h :
      (uniqueStrings (st.ensAddresses ++ as)).filter isValidEthAddress =
        st.ensAddresses
  · simp [h]
  · simp [h]

theorem updateEnsAddresses_not_changed {st : EthNamesState}
    {as : List String} (h : (updateEnsAddresses st as).1 = false) :
    (updateEnsAddresses st as).2 = st := by
  unfold updateEnsAddresses at h ⊢
  simp only [decide_eq_false_iff_not, ne_eq, not_not] at h
  simp [h]

/-- C7: `fetchEthNames` requests name resolution for exactly the
deduplicated union of the global address book, the private address book
and the ENS worklist, and on success replaces the entire name mapping
with the backend result regardless of what the mapping held before. -/
theorem fetchEthNames_requests_union_and_replaces (st : EthNamesState)
    (result : List (String × String)) :
    (fetchEthNames st (.ok result)).1 = { st with ethNames := result } ∧
    (fetchEthNames st (.ok result)).2 =
      [.ethNamesRequest (uniqueStrings
        (st.ethAddressBookGlobal.map (·.address)
          ++ st.ethAddressBookPrivate.map (·.address)
          ++ st.ensAddresses))] ∧
    (uniqueStrings
        (st.ethAddressBookGlobal.map (·.address)
          ++ st.ethAddressBookPrivate.map (·.address)
          ++ st.ensAddresses)).Nodup ∧
    ∀ a, a ∈ uniqueStrings
        (st.ethAddressBookGlobal.map (·.address)
          ++ st.ethAddressBookPrivate.map (·.address)
          ++ st.ensAddresses) ↔
      (a ∈ st.ethAddressBookGlobal.map (·.address) ∨
        a ∈ st.ethAddressBookPrivate.map (·.address) ∨
        a ∈ st.ensAddresses) := by
  refine ⟨rfl, rfl, nodup_uniqueStrings _, ?_⟩
  intro a
  rw [mem_uniqueStrings]
  simp [or_assoc]

/-- C8: every store operation mutates local state only on backend-reported
success: a failing `fetchEthNames` keeps the previous mapping and notifies;
a failing `fetchEthAddressBook` keeps the location mirror and never calls
`fetchEthNames`; failing add/update/delete mutations change no state and
trigger no refetch. -/
theorem ethNames_store_failure_is_noop :
    (∀ (st : EthNamesState) (e : String),
      (fetchEthNames st (.error e)).1 = st ∧
      StoreEvent.errorNotified ∈ (fetchEthNames st (.error e)).2) ∧
    (∀ (st : EthNamesState) (loc : EthAddressBookLocation)
        (addrs : Option (List String)) (e : String)
        (nr : Except String (List (String × String))),
      fetchEthAddressBook st loc addrs (.error e) nr =
        (st, [.addressBookRequest loc addrs, .errorNotified]) ∧
      ∀ as, StoreEvent.ethNamesRequest as ∉
        (fetchEthAddressBook st loc addrs (.error e) nr).2) ∧
    (∀ (st : EthNamesState) (loc : EthAddressBookLocation)
        (entries : List EthNamesEntry)
        (br : Except String (List EthNamesEntry))
        (nr : Except String (List (String × String))),
      addEthAddressBook st loc entries false br nr =
        (st, [.addressBookMutationRequest loc])) ∧
    (∀ (st : EthNamesState) (loc : EthAddressBookLocation)
        (entries : List EthNamesEntry)
        (br : Except String (List EthNamesEntry))
        (nr : Except String (List (String × String))),
      updateEthAddressBook st loc entries false br nr =
        (st, [.addressBookMutationRequest loc])) ∧
    (∀ (st : EthNamesState) (loc : EthAddressBookLocation)
        (addrs : List String)
        (br : Except String (List EthNamesEntry))
        (nr : Except String (List (String × String))),
      deleteEthAddressBook st loc addrs false br nr =
        (st, [.addressBookMutationRequest loc])) := by
  refine ⟨?_, ?_, ?_, ?_, ?_⟩
  · intro st e
    exact ⟨rfl, by simp [fetchEthNames]⟩
  · intro st loc addrs e nr
    exact ⟨rfl, by simp [fetchEthAddressBook]⟩
  · intro st loc entries br nr
    rfl
  · intro st loc entries br nr
    rfl
  · intro st loc addrs br nr
    rfl

theorem updateEnsAddresses_fresh (st : EthNamesState) (addr : String)
    (hinv : ensInvariant st) (hv : isValidEthAddress addr = true)
    (hnew : addr ∉ st.ensAddresses) :
    updateEnsAddresses st [addr] =
      (true, { st with ensAddresses := st.ensAddresses ++ [addr] }) := by
  have h1 : uniqueStrings (st.ensAddresses ++ [addr]) =
      st.ensAddresses ++ [addr] := by
    rw [uniqueStrings_append_single, if_neg hnew, uniqueStrings_eq_self hinv.1]
  have h2 : (st.ensAddresses ++ [addr]).filter isValidEthAddress =
      st.ensAddresses ++ [addr] := by
    apply List.filter_eq_self.mpr
    intro a ha
    rcases List.mem_append.mp ha with h | h
    · exact hinv.2 a h
    · simp only [List.mem_singleton] at h
      exact h ▸ hv
  have hne : st.ensAddresses ++ [addr] ≠ st.ensAddresses := by
    intro h
    have := congrArg List.length h
    simp at this
  simp [updateEnsAddresses, h1, h2, hne]

theorem updateEnsAddresses_stale (st : EthNamesState) (addr : String)
    (hinv : ensInvariant st) (hmem : addr ∈ st.ensAddresses) :
    updateEnsAddresses st [addr] = (false, st) := by
  have h1 : uniqueStrings (st.ensAddresses ++ [addr]) = st.ensAddresses := by
    rw [uniqueStrings_append_single, if_pos hmem, List.append_nil,
      uniqueStrings_eq_self hinv.1]
  have h2 : st.ensAddresses.filter isValidEthAddress = st.ensAddresses :=
    List.filter_eq_self.mpr hinv.2
  simp [updateEnsAddresses, h1, h2]

theorem ensResolutionCount_resolution_cons (tracked : Bool)
    (as : List String) (evs : List StoreEvent) :
    ensResolutionCount (.ensResolutionRequest tracked as :: evs) =
      ensResolutionCount evs + 1 := by
  simp [ensResolutionCount, List.filter_cons]

theorem fetchEnsNames_of_stale (st : EthNamesState) (as : List String)
    (r : Except String (List (String × String)))
    (h : updateEnsAddresses st as = (false, st)) :
    fetchEnsNames st as false r = (st, []) := by
  by_cases h0 : as.length = 0
  · simp [fetchEnsNames, h0]
  · simp [fetchEnsNames, h0, h]

theorem fetchEnsNames_forced_of_stale (st : EthNamesState) (as : List String)
    (r : Except String (List (String × String)))
    (h : updateEnsAddresses st as = (false, st)) (h0 : as.length ≠ 0)
    (hl : 0 < st.ensAddresses.length) :
    fetchEnsNames st as true r =
      ((fetchEthNames st r).1,
        .ensResolutionRequest true st.ensAddresses :: (fetchEthNames st r).2) := by
  simp [fetchEnsNames, h0, h, hl]

/-- C6: `fetchEnsNames` is a no-op on an empty address list; with
forceUpdate off and a worklist the addresses do not change it makes no
backend call; two successive non-forced calls with the same single new
address make exactly one ENS backend resolution call (the second also
leaves the state untouched), while a following forced call makes one more
resolution call although the worklist is unchanged. -/
theorem fetchEnsNames_call_discipline (st : EthNamesState) (addr : String)
    (r1 r2 r3 : Except String (List (String × String)))
    (hinv : ensInvariant st) (hv : isValidEthAddress addr = true)
    (hnew : addr ∉ st.ensAddresses) :
    (∀ (forceUpdate : Bool) (r : Except String (List (String × String))),
      fetchEnsNames st [] forceUpdate r = (st, [])) ∧
    (∀ (addresses : List String) (r : Except String (List (String × String))),
      (updateEnsAddresses st addresses).1 = false →
      fetchEnsNames st addresses false r = (st, [])) ∧
    ensResolutionCount (fetchEnsNames st [addr] false r1).2 = 1 ∧
    ensResolutionCount
      (fetchEnsNames (fetchEnsNames st [addr] false r1).1 [addr] false r2).2
      = 0 ∧
    (fetchEnsNames (fetchEnsNames st [addr] false r1).1 [addr] false r2).1 =
      (fetchEnsNames st [addr] false r1).1 ∧
    ensResolutionCount
      (fetchEnsNames (fetchEnsNames st [addr] false r1).1 [addr] true r3).2
      = 1 := by
  have hup := updateEnsAddresses_fresh st addr hinv hv hnew
  have hlen : ((st.ensAddresses ++ [addr]).length > 0) := by
    simp
  have hc1 : fetchEnsNames st [addr] false r1 =
      ((fetchEthNames { st with ensAddresses := st.ensAddresses ++ [addr] } r1).1,
        .ensResolutionRequest false (st.ensAddresses ++ [addr]) ::
          (fetchEthNames { st with ensAddresses := st.ensAddresses ++ [addr] } r1).2) := by
    simp [fetchEnsNames, hup, hlen]
  have hens1 : (fetchEnsNames st [addr] false r1).1.ensAddresses =
      st.ensAddresses ++ [addr] := by
    rw [hc1]
    exact fetchEthNames_ensAddresses _ r1
  have hinv1 : ensInvariant (fetchEnsNames st [addr] false r1).1 := by
    constructor
    · rw [hens1]
      refine List.Nodup.append hinv.1 (List.nodup_singleton addr) ?_
      intro a ha hb
      simp only [List.mem_singleton] at hb
      exact hnew (hb ▸ ha)
    · intro a ha
      rw [hens1] at ha
      rcases List.mem_append.mp ha with h | h
      · exact hinv.2 a h
      · simp only [List.mem_singleton] at h
        exact h ▸ hv
  have hmem1 : addr ∈ (fetchEnsNames st [addr] false r1).1.ensAddresses := by
    rw [hens1]
    exact List.mem_append_right _ (List.mem_singleton_self addr)
  have hup2 := updateEnsAddresses_stale (fetchEnsNames st [addr] false r1).1
    addr hinv1 hmem1
  have hc2 : fetchEnsNames (fetchEnsNames st [addr] false r1).1 [addr] false r2 =
      ((fetchEnsNames st [addr] false r1).1, []) :=
    fetchEnsNames_of_stale _ _ r2 hup2
  have hlen2 : ((fetchEnsNames st [addr] false r1).1.ensAddresses.length > 0) := by
    rw [hens1]
    simpa using hlen
  have hc3 : fetchEnsNames (fetchEnsNames st [addr] false r1).1 [addr] true r3 =
      ((fetchEthNames (fetchEnsNames st [addr] false r1).1 r3).1,
        .ensResolutionRequest true (fetchEnsNames st [addr] false r1).1.ensAddresses ::
          (fetchEthNames (fetchEnsNames st [addr] false r1).1 r3).2) :=
    fetchEnsNames_forced_of_stale _ _ r3 hup2 (by simp) hlen2
  refine ⟨?_, ?_, ?_, ?_, ?_, ?_⟩
  · intro forceUpdate r
    simp [fetchEnsNames]
  · intro addresses r h
    have hsame := updateEnsAddresses_not_changed h
    by_cases h0 : addresses.length = 0
    · simp [fetchEnsNames, h0]
    · simp [fetchEnsNames, h0, h, hsame]
  · rw [hc1]
    rw [show ((fetchEthNames { st with ensAddresses := st.ensAddresses ++ [addr] } r1).1,
        StoreEvent.ensResolutionRequest false (st.ensAddresses ++ [addr]) ::
          (fetchEthNames { st with ensAddresses := st.ensAddresses ++ [addr] } r1).2).2 =
        StoreEvent.ensResolutionRequest false (st.ensAddresses ++ [addr]) ::
          (fetchEthNames { st with ensAddresses := st.ensAddresses ++ [addr] } r1).2 from rfl,
      ensResolutionCount_resolution_cons, ensResolutionCount_fetchEthNames]
  · rw [hc2]
    simp [ensResolutionCount]
  · rw [hc2]
  · rw [hc3]
    rw [show ((fetchEthNames (fetchEnsNames st [addr] false r1).1 r3).1,
        StoreEvent.ensResolutionRequest true (fetchEnsNames st [addr] false r1).1.ensAddresses ::
          (fetchEthNames (fetchEnsNames st [addr] false r1).1 r3).2).2 =
        StoreEvent.ensResolutionRequest true (fetchEnsNames st [addr] false r1).1.ensAddresses ::
          (fetchEthNames (fetchEnsNames st [addr] false r1).1 r3).2 from rfl,
      ensResolutionCount_resolution_cons, ensResolutionCount_fetchEthNames]

/-- Witness for C6 at the initial state with one concrete valid address:
one resolution call, then zero on the repeat, then one more when forced. -/
theorem fetchEnsNames_call_discipline_witness :
    ensResolutionCount
      (fetchEnsNames initialEthNamesState
        ["0xaaaaaaaaaaaaaaaaaaaaaaaaaaaaaaaaaaaaaaaa"] false (.ok [])).2 = 1 ∧
    ensResolutionCount
      (fetchEnsNames
        (fetchEnsNames initialEthNamesState
          ["0xaaaaaaaaaaaaaaaaaaaaaaaaaaaaaaaaaaaaaaaa"] false (.ok [])).1
        ["0xaaaaaaaaaaaaaaaaaaaaaaaaaaaaaaaaaaaaaaaa"] false (.ok [])).2 = 0 ∧
    ensResolutionCount
      (fetchEnsNames
        (fetchEnsNames initialEthNamesState
          ["0xaaaaaaaaaaaaaaaaaaaaaaaaaaaaaaaaaaaaaaaa"] false (.ok [])).1
        ["0xaaaaaaaaaaaaaaaaaaaaaaaaaaaaaaaaaaaaaaaa"] true (.ok [])).2 = 1 := by
  have h := fetchEnsNames_call_discipline initialEthNamesState
    "0xaaaaaaaaaaaaaaaaaaaaaaaaaaaaaaaaaaaaaaaa" (.ok []) (.ok []) (.ok [])
    ⟨List.nodup_nil, by simp [initialEthNamesState]⟩ (by decide)
    (by simp [initialEthNamesState])
  exact ⟨h.2.2.1, h.2.2.2.1, h.2.2.2.2.2⟩

theorem updateEthAddressBookState_ensAddresses (st : EthNamesState)
    (loc : EthAddressBookLocation) (res : List EthNamesEntry)
    (r : Except String (List (String × String))) :
    (updateEthAddressBookState st loc res r).1.ensAddresses =
      st.ensAddresses := by
  cases loc <;> cases r <;> simp [updateEthAddressBookState, fetchEthNames]

theorem fetchEthAddressBook_ensAddresses (st : EthNamesState)
    (loc : EthAddressBookLocation) (addrs : Option (List String))
    (br : Except String (List EthNamesEntry))
    (nr : Except String (List (String × String))) :
    (fetchEthAddressBook st loc addrs br nr).1.ensAddresses =
      st.ensAddresses := by
  cases br with
  | ok res =>
    simp only [fetchEthAddressBook]
    exact updateEthAddressBookState_ensAddresses st loc res nr
  | error e => rfl

/-- Every store operation either leaves the worklist untouched or rewrites
it to the merged, deduplicated, validity-filtered form produced by
`updateEnsAddresses`. -/
theorem stepStore_ensAddresses (st : EthNamesState) (op : StoreOp) :
    (stepStore st op).1.ensAddresses = st.ensAddresses ∨
    ∃ as, (stepStore st op).1.ensAddresses =
      (uniqueStrings (st.ensAddresses ++ as)).filter isValidEthAddress := by
  cases op with
  | opFetchEnsNames as f r =>
    by_cases h0 : as.length = 0
    · left
      simp [stepStore, fetchEnsNames, h0]
    · right
      refine ⟨as, ?_⟩
      have hens := congrArg EthNamesState.ensAddresses (updateEnsAddresses_eq st as)
      simp only [stepStore, fetchEnsNames]
      rw [if_neg h0]
      split
      · exact hens
      · split
        · rw [show ((fetchEthNames (updateEnsAddresses st as).2 r).1,
              StoreEvent.ensResolutionRequest f (updateEnsAddresses st as).2.ensAddresses ::
                (fetchEthNames (updateEnsAddresses st as).2 r).2).1 =
              (fetchEthNames (updateEnsAddresses st as).2 r).1 from rfl,
            fetchEthNames_ensAddresses]
          exact hens
        · exact hens
  | opFetchEthNames r =>
    left
    exact fetchEthNames_ensAddresses st r
  | opFetchEthAddressBook loc addrs br nr =>
    left
    exact fetchEthAddressBook_ensAddresses st loc addrs br nr
  | opAddEthAddressBook loc entries ok br nr =>
    left
    cases ok with
    | true =>
      simp only [stepStore, addEthAddressBook, if_pos]
      exact fetchEthAddressBook_ensAddresses st loc none br nr
    | false => rfl
  | opUpdateEthAddressBook loc entries ok br nr =>
    left
    cases ok with
    | true =>
      simp only [stepStore, updateEthAddressBook, if_pos]
      exact fetchEthAddressBook_ensAddresses st loc none br nr
    | false => rfl
  | opDeleteEthAddressBook loc addrs ok br nr =>
    left
    cases ok with
    | true =>
      simp only [stepStore, deleteEthAddressBook, if_pos]
      exact fetchEthAddressBook_ensAddresses st loc none br nr
    | false => rfl

theorem stepStore_preserves_ensInvariant (st : EthNamesState) (op : StoreOp)
    (hinv : ensInvariant st) :
    ensInvariant (stepStore st op).1 ∧
    ∀ a ∈ st.ensAddresses, a ∈ (stepStore st op).1.ensAddresses := by
  rcases stepStore_ensAddresses st op with h | ⟨as, h⟩
  · exact ⟨⟨h ▸ hinv.1, h ▸ hinv.2⟩, fun a ha => h ▸ ha⟩
  · refine ⟨⟨?_, ?_⟩, ?_⟩
    · rw [h]
      exact (nodup_uniqueStrings _).filter _
    · intro a ha
      rw [h] at ha
      exact (List.mem_filter.mp ha).2
    · intro a ha
      rw [h]
      exact List.mem_filter.mpr
        ⟨mem_uniqueStrings.mpr (List.mem_append_left _ ha), hinv.2 a ha⟩

theorem runStore_preserves_ensInvariant (ops : List StoreOp) :
    ∀ st : EthNamesState, ensInvariant st → ensInvariant (runStore st ops) := by
  induction ops with
  | nil => exact fun st h => h
  | cons op ops ih =>
    intro st h
    exact ih _ (stepStore_preserves_ensInvariant st op h).1

/-- C9: the ENS worklist invariant — after any sequence of store
operations the worklist holds only structurally valid addresses with no
duplicates, and each operation only ever grows it as a set (merging new
addresses, never removing entries). -/
theorem ensAddresses_worklist_invariant :
    ensInvariant initialEthNamesState ∧
    (∀ (st : EthNamesState) (op : StoreOp), ensInvariant st →
      ensInvariant (stepStore st op).1 ∧
      ∀ a ∈ st.ensAddresses, a ∈ (stepStore st op).1.ensAddresses) ∧
    ∀ ops : List StoreOp, ensInvariant (runStore initialEthNamesState ops) := by
  refine ⟨⟨List.nodup_nil, by simp [initialEthNamesState]⟩, ?_, ?_⟩
  · exact stepStore_preserves_ensInvariant
  · intro ops
    exact runStore_preserves_ensInvariant ops initialEthNamesState
      ⟨List.nodup_nil, by simp [initialEthNamesState]⟩

/-- Witness for C9: the invariant holds after a concrete fetch step from
the initial state. -/
theorem ensAddresses_worklist_invariant_witness :
    ensInvariant (stepStore initialEthNamesState
      (.opFetchEnsNames ["0xaaaaaaaaaaaaaaaaaaaaaaaaaaaaaaaaaaaaaaaa"]
        false (.ok []))).1 :=
  (ensAddresses_worklist_invariant.2.1 initialEthNamesState
    (.opFetchEnsNames ["0xaaaaaaaaaaaaaaaaaaaaaaaaaaaaaaaaaaaaaaaa"]
      false (.ok []))
    ensAddresses_worklist_invariant.1).1
